import Mathlib

/-
Shallow embedding of the caffe2 ONNXWhile loop controller
(src/caffe2/operators/onnx_while_op.h, class ONNXWhileOp<Context>:
constructor lines 29-59 and RunOnDevice lines 69-218).

The repository snapshot contains only the operator header.  The Buffer
primitives it calls (caffe2 Tensor<Context>::Resize / CopyFrom / Extend,
Tensor::data<T>, Workspace::CreateBlob) are not under src/; those are
modelled from the specification (spec.md sections 3, 4.1 and 4.2) and each
such definition is marked `Modelled from the spec:` in its doc comment.

Machine integers: the iteration counter is an int64 starting at 0 and
incremented by 1 per taken iteration; runs are bounded by an explicit fuel
argument far below 2^63, so the counter is represented by Nat and the
trip-count comparison is done in Int (int64 values fit).  Raw tensor memory
is a list of byte values; all offsets computed by the code are in bytes,
exactly as in the source.
-/

namespace ONNXWhile

/-- Element-type tag together with its byte width (caffe2 TypeMeta). -/
structure TypeMeta where
  id : Nat
  itemsize : Nat
deriving DecidableEq, Repr

def int64Meta : TypeMeta := ⟨1, 8⟩

def boolMeta : TypeMeta := ⟨2, 1⟩

def int32Meta : TypeMeta := ⟨3, 4⟩

/-- A Buffer: ordered dimension list, element type tag with byte width, and
raw bytes.  `data` holds at least the logical `numel * itemsize` bytes; it may
be longer when a raw write went past the logical end into over-allocated
capacity (mirroring `memcpy` into an `Extend`-grown buffer). -/
structure Tensor where
  dims : List Nat
  meta : TypeMeta
  data : List Nat
deriving DecidableEq, Repr

/-- Product of a dimension list, exactly the loop
`TIndex timestep_size = 1; for (t : sizes) timestep_size *= t;` (lines 185-188). -/
def listProd (l : List Nat) : Nat := l.foldl (fun a b => a * b) 1

def Tensor.numel (t : Tensor) : Nat := listProd t.dims

def Tensor.empty : Tensor := ⟨[], ⟨0, 1⟩, []⟩

/-- Modelled from the spec: Buffer `resize(shape)` (section 4.1) reinterprets or
reallocates the buffer to hold the given shape, with no content guarantee;
uninitialized content is represented by zero bytes. -/
def Tensor.resize (t : Tensor) (d : List Nat) : Tensor :=
  { t with dims := d, data := List.replicate (listProd d * t.meta.itemsize) 0 }

/-- Modelled from the spec: Buffer `copy_from(other)` (section 4.1) is a full
content + shape copy: the target takes the source's shape, element type and
bytes (caffe2 `Tensor::CopyFrom`, which does `Resize(src.dims())` first). -/
def Tensor.copy_from (_t src : Tensor) : Tensor :=
  { dims := src.dims, meta := src.meta, data := src.data }

def padTo (l : List Nat) (n : Nat) : List Nat := l ++ List.replicate (n - l.length) 0

/-- Modelled from the spec: Buffer `extend_leading` (section 4.1) grows the
leading dimension without disturbing existing content; a buffer with no
dimensions cannot be extended (fatal in the source: `CAFFE_ENFORCE_GE` on the
rank inside `Extend`).  Over-allocated capacity is not observable and is not
tracked; newly exposed bytes are zero. -/
def Tensor.extend_leading (t : Tensor) (n : Nat) : Option Tensor :=
  match t.dims with
  | [] => none
  | d :: rest =>
    some { t with dims := (d + n) :: rest,
                  data := padTo t.data (listProd ((d + n) :: rest) * t.meta.itemsize) }

/-- `Output(i)->template mutable_data<int32_t>()` (line 144): if the buffer is
not already int32-typed it is re-typed, and its memory is reallocated
(uninitialized, represented by zeros). -/
def Tensor.mutable_data_int32 (t : Tensor) : Tensor :=
  if t.meta = int32Meta then t
  else { t with meta := int32Meta, data := List.replicate (t.numel * int32Meta.itemsize) 0 }

/-- Raw `memcpy(dst + off, src, src.length)` into a buffer's bytes, in bytes.
Writing past the end of `dst` lands in over-allocated capacity, which the
model represents by growing the byte list. -/
def writeBytes (dst : List Nat) (off : Nat) (src : List Nat) : List Nat :=
  let d := padTo dst (off + src.length)
  d.take off ++ src ++ d.drop (off + src.length)

/-- Little-endian two's-complement decoding of (up to) 8 bytes as an int64. -/
def decodeInt64 (bs : List Nat) : Int :=
  let u : Nat := bs.foldr (fun b acc => acc * 256 + b % 256) 0
  if u < 2 ^ 63 then (u : Int) else (u : Int) - 2 ^ 64

/-- `*Input(0).template data<int64_t>()` (line 75): dereferencing requires the
tensor to be int64-typed (`data<T>` enforces `IsType<T>`) and to hold at least
one element; otherwise the read is a fatal error / undefined. -/
def readInt64 (t : Tensor) : Option Int :=
  if t.meta = int64Meta ∧ 1 ≤ t.numel then some (decodeInt64 (t.data.take 8)) else none

/-- `*Input(1).template data<bool>()` (line 76): requires a bool-typed tensor
with at least one element. -/
def readBool (t : Tensor) : Option Bool :=
  if t.meta = boolMeta ∧ 1 ≤ t.numel then some (decide (t.data.headD 0 ≠ 0)) else none

/-- What one successful run of the body net leaves in its external-output
blobs: output condition, then N loop-carried outputs, then K scan slices
(source comment lines 66-68). -/
structure BodyOutput where
  cond : Bool
  lcds : List Tensor
  scans : List Tensor
deriving DecidableEq, Repr

/-- Construction-time configuration of the operator: the `has_trip_count` and
`has_cond` arguments (lines 32-34), the body net's declared external input and
output arities, and the body net itself as the opaque Subgraph Executor: given
the iteration number, the input-condition value and the current loop-carried
tensors it either fails (`none`, i.e. `body_net_->Run()` returned false) or
produces its outputs. -/
structure WhileConfig where
  has_trip_count : Bool
  has_cond : Bool
  body_input_count : Nat
  body_output_count : Nat
  body : Nat → Bool → List Tensor → Option BodyOutput

/-- The `valid_iter_num` lambda (lines 120-126). -/
def valid_iter_num (cfg : WhileConfig) (max_trip_count : Int) (i : Int) : Bool :=
  if cfg.has_trip_count then decide (i < max_trip_count) else true

/-- The `condition_true` lambda (lines 128-139): `first_iter_condition` is the
captured first-iteration condition, `condition_var` the current value behind
`condition_var_ptr`. -/
def condition_true (cfg : WhileConfig) (first_iter_condition condition_var : Bool)
    (i : Int) : Bool :=
  if cfg.has_cond then (if i = 0 then first_iter_condition else condition_var) else true

/-- One body-net invocation as observed by the loop: the iteration number at
which it ran, the input-condition value and loop-carried tensors it was given,
and its result (`none` = the executor reported failure). -/
structure IterRecord where
  itr : Nat
  cond_in : Bool
  lcds_in : List Tensor
  res : Option BodyOutput
deriving DecidableEq, Repr

/-- The mutable state of one invocation: the iteration-number blob, the
input-condition blob, the output-condition blob, the persistent loop-carried
tensors, the operator's scan-output tensors, and `scan_outputs_sizes`. -/
structure LoopState where
  itr : Nat
  input_condition : Bool
  condition_var : Bool
  lcds : List Tensor
  scan_targets : List Tensor
  scan_sizes : List (List Nat)
deriving Repr

/-- The distinct failure modes of one invocation.  `CAFFE_ENFORCE` failures and
a false return from `RunOnDevice` are both fatal for the invocation; the
constructors record which check fired. -/
inductive RunError where
  | bad_input_read
  | arity_inputs
  | arity_outputs
  | body_failed
  | scan_shape_drift
  | extend_rank
  | bad_body_outputs
deriving DecidableEq, Repr

/-- Scan accumulation at `itr == 0` (lines 170-175): record the slice's dims in
`scan_outputs_sizes`, resize the target to `[1] ++ dims`, then `CopyFrom` the
slice (which, being a full content + shape copy, re-shapes the target to the
slice's own dims). -/
def scanStep0 (scan target : Tensor) : Tensor × List Nat :=
  let dims := scan.dims
  (Tensor.copy_from (target.resize (1 :: dims)) scan, dims)

def accumScans0 : List Tensor → List Tensor → List Tensor × List (List Nat)
  | [], _ => ([], [])
  | _ :: _, [] => ([], [])
  | scan :: ss, tgt :: ts =>
    let p := scanStep0 scan tgt
    let r := accumScans0 ss ts
    (p.1 :: r.1, p.2 :: r.2)

/-- Scan accumulation at `itr > 0` (lines 176-196): enforce that the slice dims
equal the established `scan_outputs_sizes[i]` (fatal otherwise), `Extend` the
target's leading dimension by 1, and `memcpy` the slice's raw bytes to byte
offset `timestep_size * itemsize * itr`. -/
def scanStepN (itr : Nat) (scan target : Tensor) (est : List Nat) : Except RunError Tensor :=
  if scan.dims = est then
    match target.extend_leading 1 with
    | none => .error .extend_rank
    | some t =>
      let ts := listProd est
      .ok { t with data := writeBytes t.data (ts * scan.meta.itemsize * itr)
                             (scan.data.take (ts * scan.meta.itemsize)) }
  else .error .scan_shape_drift

def accumScansN (itr : Nat) :
    List Tensor → List Tensor → List (List Nat) → Except RunError (List Tensor)
  | [], [], [] => .ok []
  | scan :: ss, tgt :: ts, e :: es =>
    match scanStepN itr scan tgt e with
    | .error err => .error err
    | .ok t =>
      match accumScansN itr ss ts es with
      | .error err => .error err
      | .ok rest => .ok (t :: rest)
  | _, _, _ => .error .bad_body_outputs

/-- The body of one taken iteration after a successful body-net run
(lines 157-202): copy forward the loop-carried outputs, accumulate the scan
outputs, increment the iteration counter, and carry the output condition into
the input-condition blob.  A body function returning lists of the wrong
length is not realizable by an actual net (whose output blob list is fixed by
declaration); it is rejected explicitly. -/
def afterBody (N K : Nat) (st : LoopState) (out : BodyOutput) : Except RunError LoopState :=
  if out.lcds.length = N ∧ out.scans.length = K then
    let lcds2 := (st.lcds.zip out.lcds).map (fun p => Tensor.copy_from p.1 p.2)
    if st.itr = 0 then
      let acc := accumScans0 out.scans st.scan_targets
      .ok { itr := st.itr + 1, input_condition := out.cond, condition_var := out.cond,
            lcds := lcds2, scan_targets := acc.1, scan_sizes := acc.2 }
    else
      match accumScansN st.itr out.scans st.scan_targets st.scan_sizes with
      | .error e => .error e
      | .ok targets =>
        .ok { itr := st.itr + 1, input_condition := out.cond, condition_var := out.cond,
              lcds := lcds2, scan_targets := targets, scan_sizes := st.scan_sizes }
  else .error .bad_body_outputs

/-- The main `while (true)` loop (lines 151-203), with explicit fuel: `none`
means the fuel ran out with the loop still iterating.  Alongside the final
state it returns the list of body-net invocations in order. -/
def runLoop (cfg : WhileConfig) (mtc : Int) (first : Bool) (N K : Nat) :
    Nat → LoopState → Option (Except RunError LoopState × List IterRecord)
  | 0, _ => none
  | fuel + 1, st =>
    if valid_iter_num cfg mtc (st.itr : Int) &&
        condition_true cfg first st.condition_var (st.itr : Int) then
      match cfg.body st.itr st.input_condition st.lcds with
      | none => some (.error .body_failed, [⟨st.itr, st.input_condition, st.lcds, none⟩])
      | some out =>
        match afterBody N K st out with
        | .error e => some (.error e, [⟨st.itr, st.input_condition, st.lcds, some out⟩])
        | .ok st2 =>
          match runLoop cfg mtc first N K fuel st2 with
          | none => none
          | some (res, tr) => some (res, ⟨st.itr, st.input_condition, st.lcds, some out⟩ :: tr)
    else some (.ok st, [])

/-- `Output(i + num_loop_carried_deps)->Resize(0); ...mutable_data<int32_t>()`
(lines 142-144): the zero-iteration allocation of each scan output. -/
def zeroScanOutput : Tensor := Tensor.mutable_data_int32 (Tensor.resize Tensor.empty [0])

/-- `num_scan_outputs = external_output().size() - num_loop_carried_deps - 1`
(lines 88-89), computed in Int because it can be negative (checked at line 91). -/
def kOf (cfg : WhileConfig) (n : Nat) : Int := (cfg.body_output_count : Int) - n - 1

/-- State after the per-invocation initialization (lines 98-118 and 141-149):
loop-carried blobs overwritten from the operator inputs, iteration counter 0,
input condition seeded from the caller, scan outputs emptied,
`scan_outputs_sizes` empty.  The output-condition blob is not written before
the first body run; its stale value is represented by `false` and is never
read at iteration 0 (`condition_true` uses the captured first-iteration
condition there). -/
def initState (first : Bool) (lcds : List Tensor) (K : Nat) : LoopState :=
  { itr := 0, input_condition := first, condition_var := false,
    lcds := lcds.map (fun t => Tensor.copy_from Tensor.empty t),
    scan_targets := List.replicate K zeroScanOutput, scan_sizes := [] }

/-- The operator-level outputs of a successful invocation: final loop-carried
tensors `Output(0..N)`, scan outputs `Output(N..N+K)`, and the number of
iterations that ran. -/
structure WhileResult where
  outputs_lcd : List Tensor
  outputs_scan : List Tensor
  iterations : Nat
deriving Repr

/-- Everything one invocation produces: its result (or the error it failed
with; on failure the operator outputs are not populated) and the trace of
body-net invocations. -/
structure RunOutcome where
  result : Except RunError WhileResult
  trace : List IterRecord

/-- The final copy-out (lines 205-215): with at least one iteration the
persistent loop-carried tensors are copied to the outputs, with zero
iterations the initial inputs are copied straight through. -/
def resultOf (lcds_init : List Tensor) (res : Except RunError LoopState) :
    Except RunError WhileResult :=
  match res with
  | .error e => .error e
  | .ok st =>
    .ok ⟨if 0 < st.itr then st.lcds
         else lcds_init.map (fun t => Tensor.copy_from Tensor.empty t),
         st.scan_targets, st.itr⟩

/-- `ONNXWhileOp::RunOnDevice` (lines 69-218).  Inputs: max trip count,
first-iteration condition, then the N initial loop-carried tensors.  Both of
the first two inputs are dereferenced unconditionally (lines 75-76), before
the arity checks (lines 80-96); fewer than two inputs makes `Input(0)` /
`Input(1)` itself fatal. -/
def RunOnDevice (cfg : WhileConfig) (inputs : List Tensor) (fuel : Nat) : Option RunOutcome :=
  match inputs with
  | t0 :: t1 :: lcds =>
    match readInt64 t0 with
    | none => some ⟨.error .bad_input_read, []⟩
    | some mtc =>
      match readBool t1 with
      | none => some ⟨.error .bad_input_read, []⟩
      | some first =>
        if lcds.length + 2 = cfg.body_input_count then
          if 0 ≤ kOf cfg lcds.length then
            let K := (kOf cfg lcds.length).toNat
            match runLoop cfg mtc first lcds.length K fuel (initState first lcds K) with
            | none => none
            | some (res, tr) => some ⟨resultOf lcds res, tr⟩
          else some ⟨.error .arity_outputs, []⟩
        else some ⟨.error .arity_inputs, []⟩
  | _ => some ⟨.error .bad_input_read, []⟩

/-- `condition_var_ptr`'s value after the body-net run recorded by a trace
entry (`false` as a junk default for a missing or failed entry; the loop never
reads it in those situations). -/
def condOutD (r : Option IterRecord) : Bool :=
  match r with
  | some e =>
    match e.res with
    | some out => out.cond
    | none => false
  | none => false

/-- The value behind `condition_var_ptr` when the guard is evaluated before
iteration `k` of a run whose output-condition blob held `c0` on entry: the
stale `c0` before any iteration ran, afterwards the output condition produced
by iteration `k - 1`. -/
def condAt (c0 : Bool) (tr : List IterRecord) : Nat → Bool
  | 0 => c0
  | k + 1 => condOutD (tr.get? k)

/-- The complete loop guard of line 153:
`valid_iter_num(itr) && condition_true(itr)`. -/
def guardB (cfg : WhileConfig) (mtc : Int) (first c : Bool) (i : Nat) : Bool :=
  valid_iter_num cfg mtc (i : Int) && condition_true cfg first c (i : Int)

/- ----------------------------------------------------------------------
Binding-table model for the construction-time blob creation (lines 40-58).
The Workspace itself (CreateBlob / GetBlob) is not part of the snapshot;
it is modelled from the spec, section 4.2.
---------------------------------------------------------------------- -/

/-- The body net definition's declared external input and output blob names
(names as numbers). -/
structure BodyDef where
  external_input : List Nat
  external_output : List Nat

/-- A Workspace: ordered name-to-Buffer bindings. -/
abbrev Workspace := List (Nat × Tensor)

def wsKeys (ws : Workspace) : List Nat := ws.map (fun p => p.1)

def hasBlob (ws : Workspace) (name : Nat) : Bool := decide (name ∈ wsKeys ws)

/-- Modelled from the spec: `get_or_create` / `Workspace::CreateBlob`
(section 4.2): idempotent; a repeated name keeps its existing Buffer entry, a
new name is appended with a fresh empty Buffer. -/
def createBlob (ws : Workspace) (name : Nat) : Workspace :=
  if hasBlob ws name then ws else ws ++ [(name, Tensor.empty)]

/-- Overwriting the Buffer bound to an existing name in place; no entry is
ever created by an overwrite. -/
def updateBlob (ws : Workspace) (name : Nat) (t : Tensor) : Workspace :=
  ws.map (fun p => if p.1 = name then (p.1, t) else p)

/-- `body_net_def_.external_input(i)` for `i >= 2`: the loop-carried blob
names (line 41). -/
def lcdNames (bd : BodyDef) : List Nat := bd.external_input.drop 2

/-- `body_net_def_.external_input(0)`: the iteration-number blob (line 47). -/
def iterName (bd : BodyDef) : Nat := bd.external_input.headD 0

/-- `body_net_def_.external_input(1)`: the input-condition blob (line 50). -/
def condInName (bd : BodyDef) : Nat := bd.external_input.getD 1 0

/-- `body_net_def_.external_output(0)`: the output-condition blob (line 54). -/
def condOutName (bd : BodyDef) : Nat := bd.external_output.headD 0

/-- Constructor lines 40-58: create (once) the loop-carried blobs, the
iteration-number blob, the input-condition blob and the output-condition
blob, in source order. -/
def constructBindings (bd : BodyDef) (ws : Workspace) : Workspace :=
  createBlob (createBlob (createBlob ((lcdNames bd).foldl createBlob ws) (iterName bd))
      (condInName bd)) (condOutName bd)

/-- The tensors one invocation stores into the persistent bindings. -/
structure InvocationWrites where
  lcd_values : List Tensor
  iter_value : Tensor
  cond_in_value : Tensor
  cond_out_value : Tensor

/-- One invocation's effect on the persistent bindings (lines 98-118, and the
in-loop writes of lines 158-162 and 201-202, all through the `Tensor` pointers
captured at construction): pure overwrites of the names created by
`constructBindings`; `RunOnDevice` never calls `CreateBlob`. -/
def invokeBindings (bd : BodyDef) (wr : InvocationWrites) (ws : Workspace) : Workspace :=
  updateBlob (updateBlob (updateBlob
      (((lcdNames bd).zip wr.lcd_values).foldl (fun w p => updateBlob w p.1 p.2) ws)
      (iterName bd) wr.iter_value) (condInName bd) wr.cond_in_value)
    (condOutName bd) wr.cond_out_value

/-- The four fixed binding roles of the claim: loop-carried deps, iteration
number, input condition, output condition. -/
def roleNames (bd : BodyDef) : List Nat :=
  lcdNames bd ++ [iterName bd, condInName bd, condOutName bd]

/- ----------------------------------------------------------------------
Concrete instances used to witness the theorems below.
---------------------------------------------------------------------- -/

/-- A one-byte element type for the example bodies. -/
def byteMeta : TypeMeta := ⟨9, 1⟩

/-- Example body: no loop-carried deps, one scan output of shape `[2]` whose
bytes depend on the iteration number; always succeeds with condition true. -/
def exBody (itr : Nat) (_c : Bool) (_l : List Tensor) : Option BodyOutput :=
  some ⟨true, [], [⟨[2], byteMeta, [10 + 2 * itr, 11 + 2 * itr]⟩]⟩

/-- Trip count enabled, condition disabled, body arity 2 inputs / 2 outputs
(so N = 0, K = 1). -/
def exCfg : WhileConfig := ⟨true, false, 2, 2, exBody⟩

/-- Max-trip-count input holding int64 value 2. -/
def exT0 : Tensor := ⟨[1], int64Meta, [2, 0, 0, 0, 0, 0, 0, 0]⟩

/-- Condition input holding bool value true. -/
def exT1 : Tensor := ⟨[1], boolMeta, [1]⟩

def exOut0 : BodyOutput := ⟨true, [], [⟨[2], byteMeta, [10, 11]⟩]⟩

def exOut1 : BodyOutput := ⟨true, [], [⟨[2], byteMeta, [12, 13]⟩]⟩

def exRec0 : IterRecord := ⟨0, true, [], some exOut0⟩

def exRec1 : IterRecord := ⟨1, true, [], some exOut1⟩

/-- What the code computes for `exCfg` with max trip count 2: two iterations,
and a scan output of dims `[3]` holding bytes `[10, 11, 12, 13]` (the last
byte past the logical end). -/
def exResult : WhileResult := ⟨[], [⟨[3], byteMeta, [10, 11, 12, 13]⟩], 2⟩

def exOutcome : RunOutcome := ⟨.ok exResult, [exRec0, exRec1]⟩

/-- Body whose scan-output shape drifts: `[2]` at iteration 0, `[3]` later. -/
def driftBody (itr : Nat) (_c : Bool) (_l : List Tensor) : Option BodyOutput :=
  some ⟨true, [],
        [if itr = 0 then ⟨[2], byteMeta, [10, 11]⟩ else ⟨[3], byteMeta, [12, 13, 14]⟩]⟩

def driftCfg : WhileConfig := ⟨true, false, 2, 2, driftBody⟩

/-- Max-trip-count input holding int64 value 3. -/
def driftT0 : Tensor := ⟨[1], int64Meta, [3, 0, 0, 0, 0, 0, 0, 0]⟩

def driftOut0 : BodyOutput := ⟨true, [], [⟨[2], byteMeta, [10, 11]⟩]⟩

def driftOut1 : BodyOutput := ⟨true, [], [⟨[3], byteMeta, [12, 13, 14]⟩]⟩

def driftRec0 : IterRecord := ⟨0, true, [], some driftOut0⟩

def driftRec1 : IterRecord := ⟨1, true, [], some driftOut1⟩

def driftOutcome : RunOutcome := ⟨.error .scan_shape_drift, [driftRec0, driftRec1]⟩

/-- A body net whose run always fails. -/
def failBody (_i : Nat) (_c : Bool) (_l : List Tensor) : Option BodyOutput := none

def failCfg : WhileConfig := ⟨true, false, 2, 1, failBody⟩

def failRec : IterRecord := ⟨0, true, [], none⟩

def failOutcome : RunOutcome := ⟨.error .body_failed, [failRec]⟩

/-- Body with one loop-carried dep and one scan output (N = 1, K = 1); never
actually run in the zero-iteration scenarios. -/
def zBody (_i : Nat) (_c : Bool) (_l : List Tensor) : Option BodyOutput :=
  some ⟨true, [⟨[1], byteMeta, [42]⟩], [⟨[1], byteMeta, [7]⟩]⟩

def zCfg : WhileConfig := ⟨true, false, 3, 3, zBody⟩

/-- Max-trip-count input holding int64 value 0. -/
def zT0 : Tensor := ⟨[1], int64Meta, [0, 0, 0, 0, 0, 0, 0, 0]⟩

/-- An initial loop-carried tensor. -/
def zLcd : Tensor := ⟨[1], byteMeta, [5]⟩

/-- Neither trip count nor condition configured. -/
def nfCfg : WhileConfig := ⟨false, false, 2, 2, exBody⟩

/-- Body declares 5 inputs but the operator supplies N = 0 loop-carried
deps: input-arity contract violation. -/
def baCfg : WhileConfig := ⟨true, false, 5, 2, exBody⟩

/-- A bool-typed tensor where an int64 is dereferenced. -/
def badT0 : Tensor := ⟨[1], boolMeta, [1]⟩

/- ----------------------------------------------------------------------
Theorems.
---------------------------------------------------------------------- -/

theorem copy_from_id (a b : Tensor) : Tensor.copy_from a b = b := rfl

theorem map_copy_from_id (l : List Tensor) :
    l.map (fun t => Tensor.copy_from Tensor.empty t) = l := by
  simp [copy_from_id]

theorem condAt_cons (c0 : Bool) (e : IterRecord) (tr : List IterRecord) (k : Nat) :
    condAt c0 (e :: tr) (k + 1) = condAt (condOutD (some e)) tr k := by
  cases k <;> rfl

theorem afterBody_ok {N K : Nat} {st st2 : LoopState} {out : BodyOutput}
    (h : afterBody N K st out = .ok st2) :
    st2.itr = st.itr + 1 ∧ st2.input_condition = out.cond ∧ st2.condition_var = out.cond ∧
    out.lcds.length = N ∧ out.scans.length = K ∧
    (st.itr = 0 → st2.scan_sizes = (accumScans0 out.scans st.scan_targets).2) ∧
    (st.itr ≠ 0 → st2.scan_sizes = st.scan_sizes ∧
      accumScansN st.itr out.scans st.scan_targets st.scan_sizes = .ok st2.scan_targets) := by
  unfold afterBody at h
  split at h
  · rename_i hlen
    split at h
    · rename_i hz
      cases h
      exact ⟨rfl, rfl, rfl, hlen.1, hlen.2, fun _ => rfl, fun hnz => absurd hz hnz⟩
    · rename_i hnz
      split at h
      · exact Except.noConfusion h
      · rename_i targets heq
        cases h
        exact ⟨rfl, rfl, rfl, hlen.1, hlen.2, fun hz => absurd hz hnz, fun _ => ⟨rfl, heq⟩⟩
  · exact Except.noConfusion h

/-- Master invariant of the main while loop: the body runs at consecutive
iteration numbers starting from the entry state's counter; every recorded
body invocation was admitted by a true guard evaluated on the proper
condition value; an executor failure is fatal immediately; and a normal exit
happens exactly at the first false guard. -/
theorem runLoop_spec (cfg : WhileConfig) (mtc : Int) (first : Bool) (N K : Nat) :
    ∀ fuel st res tr, runLoop cfg mtc first N K fuel st = some (res, tr) →
      (tr.map IterRecord.itr = List.range' st.itr tr.length) ∧
      (∀ k e, tr.get? k = some e →
        e.itr = st.itr + k ∧
        e.res = cfg.body e.itr e.cond_in e.lcds_in ∧
        guardB cfg mtc first (condAt st.condition_var tr k) (st.itr + k) = true ∧
        (e.res = none → res = .error .body_failed)) ∧
      (∀ st2, res = .ok st2 →
        st2.itr = st.itr + tr.length ∧
        st2.condition_var = condAt st.condition_var tr tr.length ∧
        guardB cfg mtc first st2.condition_var st2.itr = false) := by
  intro fuel
  induction fuel with
  | zero => intro st res tr h; exact Option.noConfusion h
  | succ n ih =>
    intro st res tr h
    rw [runLoop] at h
    split at h
    · rename_i hg
      split at h
      · -- body-net run failed
        rename_i hb
        simp only [Option.some.injEq, Prod.mk.injEq] at h
        obtain ⟨rfl, rfl⟩ := h.symm
        refine ⟨by simp [List.range'], ?_, ?_⟩
        · intro k e hk
          cases k with
          | zero =>
            simp only [List.get?] at hk
            obtain rfl := Option.some.inj hk
            exact ⟨(Nat.add_zero _).symm, by simp [hb], by simpa [guardB] using hg,
                   fun _ => rfl⟩
          | succ k => simp [List.get?] at hk
        · intro st2 hres; exact Except.noConfusion hres
      · rename_i out hb
        split at h
        · -- a CAFFE_ENFORCE inside the iteration fired
          rename_i err hab
          simp only [Option.some.injEq, Prod.mk.injEq] at h
          obtain ⟨rfl, rfl⟩ := h.symm
          refine ⟨by simp [List.range'], ?_, ?_⟩
          · intro k e hk
            cases k with
            | zero =>
              simp only [List.get?] at hk
              obtain rfl := Option.some.inj hk
              exact ⟨(Nat.add_zero _).symm, by simp [hb], by simpa [guardB] using hg,
                     fun hc => Option.noConfusion hc⟩
            | succ k => simp [List.get?] at hk
          · intro st2 hres; exact Except.noConfusion hres
        · -- iteration completed; recurse
          rename_i st2 hab
          split at h
          · exact Option.noConfusion h
          · rename_i p res0 tr0 hrec
            simp only [Option.some.injEq, Prod.mk.injEq] at h
            obtain ⟨rfl, rfl⟩ := h.symm
            obtain ⟨hitr2, _, hcv2, _, _, _, _⟩ := afterBody_ok hab
            obtain ⟨ihmap, ihrec, ihend⟩ := ih st2 res0 tr0 hrec
            have hcons : condOutD (some ⟨st.itr, st.input_condition, st.lcds, some out⟩)
                = st2.condition_var := by rw [hcv2]; rfl
            refine ⟨?_, ?_, ?_⟩
            · simp only [List.map_cons, List.length_cons, List.range'_succ]
              rw [ihmap, hitr2]
            · intro k e hk
              cases k with
              | zero =>
                simp only [List.get?] at hk
                obtain rfl := Option.some.inj hk
                exact ⟨(Nat.add_zero _).symm, by simp [hb], by simpa [guardB] using hg,
                       fun hc => Option.noConfusion hc⟩
              | succ k =>
                simp only [List.get?] at hk
                obtain ⟨hitr, hdet, hguard, hprop⟩ := ihrec k e hk
                have hidx : st.itr + (k + 1) = st2.itr + k := by omega
                refine ⟨by rw [hitr, hidx], hdet, ?_, hprop⟩
                rw [hidx, condAt_cons, hcons]
                exact hguard
            · intro st3 hres
              obtain ⟨hi3, hc3, hg3⟩ := ihend st3 hres
              refine ⟨by simp only [List.length_cons]; omega, ?_, hg3⟩
              rw [hc3]
              simp only [List.length_cons]
              rw [condAt_cons, hcons]
    · rename_i hg
      simp only [Option.some.injEq, Prod.mk.injEq] at h
      obtain ⟨rfl, rfl⟩ := h.symm
      simp only [Bool.not_eq_true] at hg
      refine ⟨by simp [List.range'], ?_, ?_⟩
      · intro k e hk; simp [List.get?] at hk
      · intro st2 hres
        obtain rfl := Except.ok.inj hres
        exact ⟨(Nat.add_zero _).symm, rfl, by simpa [guardB] using hg⟩

theorem scanStepN_ok_dims {itr : Nat} {scan tgt : Tensor} {est : List Nat} {t : Tensor}
    (h : scanStepN itr scan tgt est = .ok t) : scan.dims = est := by
  unfold scanStepN at h
  split at h
  · rename_i hdims; exact hdims
  · exact Except.noConfusion h

theorem accumScansN_ok_dims {itr : Nat} :
    ∀ {scans targets : List Tensor} {sizes : List (List Nat)} {out : List Tensor},
      accumScansN itr scans targets sizes = .ok out → scans.map Tensor.dims = sizes := by
  intro scans
  induction scans with
  | nil =>
    intro targets sizes out h
    cases targets with
    | nil =>
      cases sizes with
      | nil => simp
      | cons s ss => simp [accumScansN] at h
    | cons t ts => simp [accumScansN] at h
  | cons scan ss ihs =>
    intro targets sizes out h
    cases targets with
    | nil => simp [accumScansN] at h
    | cons tgt ts =>
      cases sizes with
      | nil => simp [accumScansN] at h
      | cons e es =>
        rw [accumScansN] at h
        split at h
        · exact Except.noConfusion h
        · rename_i t hstep
          split at h
          · exact Except.noConfusion h
          · rename_i rest hrec
            simp only [List.map_cons]
            rw [scanStepN_ok_dims hstep, ihs hrec]

theorem accumScans0_sizes :
    ∀ (scans targets : List Tensor), targets.length = scans.length →
      (accumScans0 scans targets).2 = scans.map Tensor.dims := by
  intro scans
  induction scans with
  | nil => intro targets h; rfl
  | cons scan ss ihs =>
    intro targets h
    cases targets with
    | nil => simp at h
    | cons tgt ts =>
      simp only [List.length_cons] at h
      simp only [accumScans0, List.map_cons]
      rw [ihs ts (by omega)]
      rfl

/-- In a normally terminating run entered with a positive iteration counter,
every recorded body invocation produced scan slices whose dims equal the
incoming `scan_outputs_sizes`, which the run leaves unchanged. -/
theorem runLoop_scan_pos (cfg : WhileConfig) (mtc : Int) (first : Bool) (N K : Nat) :
    ∀ fuel st st2 tr, 0 < st.itr →
      runLoop cfg mtc first N K fuel st = some (.ok st2, tr) →
      st2.scan_sizes = st.scan_sizes ∧
      ∀ k e out, tr.get? k = some e → e.res = some out →
        out.scans.map Tensor.dims = st.scan_sizes := by
  intro fuel
  induction fuel with
  | zero => intro st st2 tr hpos h; exact Option.noConfusion h
  | succ n ih =>
    intro st st2 tr hpos h
    rw [runLoop] at h
    split at h
    · rename_i hg
      split at h
      · simp at h
      · rename_i out hb
        split at h
        · simp at h
        · rename_i st3 hab
          split at h
          · exact Option.noConfusion h
          · rename_i p res0 tr0 hrec
            simp only [Option.some.injEq, Prod.mk.injEq] at h
            obtain ⟨rfl, rfl⟩ := h
            obtain ⟨hitr2, _, _, _, _, _, hnz⟩ := afterBody_ok hab
            obtain ⟨hsz, hok⟩ := hnz (by omega)
            have hdims := accumScansN_ok_dims hok
            obtain ⟨ih1, ih2⟩ := ih st3 st2 tr0 (by omega) hrec
            refine ⟨by rw [ih1, hsz], ?_⟩
            intro k e out2 hk hres
            cases k with
            | zero =>
              simp only [List.get?] at hk
              obtain rfl := Option.some.inj hk
              obtain rfl := Option.some.inj hres
              exact hdims
            | succ k =>
              simp only [List.get?] at hk
              rw [ih2 k e out2 hk hres, hsz]
    · rename_i hg
      simp only [Option.some.injEq, Prod.mk.injEq] at h
      obtain ⟨hres, rfl⟩ := h
      obtain rfl := Except.ok.inj hres
      refine ⟨rfl, ?_⟩
      intro k e out hk hres2; simp [List.get?] at hk

/-- In a normally terminating run entered at iteration 0 with `K` allocated
scan targets, every recorded body invocation produced scan slices whose dims
equal those of the invocation recorded at iteration 0. -/
theorem runLoop_scan_zero (cfg : WhileConfig) (mtc : Int) (first : Bool) (N K : Nat)
    (fuel : Nat) (st st2 : LoopState) (tr : List IterRecord)
    (h0 : st.itr = 0) (hK : st.scan_targets.length = K)
    (h : runLoop cfg mtc first N K fuel st = some (.ok st2, tr)) :
    ∀ e0 out0 k e out, tr.get? 0 = some e0 → e0.res = some out0 →
      tr.get? k = some e → e.res = some out →
      out.scans.map Tensor.dims = out0.scans.map Tensor.dims := by
  cases fuel with
  | zero => exact Option.noConfusion h
  | succ n =>
    rw [runLoop] at h
    split at h
    · rename_i hg
      split at h
      · simp at h
      · rename_i out hb
        split at h
        · simp at h
        · rename_i st3 hab
          split at h
          · exact Option.noConfusion h
          · rename_i p res0 tr0 hrec
            simp only [Option.some.injEq, Prod.mk.injEq] at h
            obtain ⟨rfl, rfl⟩ := h
            obtain ⟨hitr2, _, _, _, hlen, hz, _⟩ := afterBody_ok hab
            have hsz : st3.scan_sizes = out.scans.map Tensor.dims := by
              rw [hz h0, accumScans0_sizes out.scans st.scan_targets (by rw [hK, hlen])]
            have hpos := runLoop_scan_pos cfg mtc first N K n st3 st2 tr0
              (by omega) hrec
            intro e0 out0 k e out2 hk0 hres0 hk hres
            simp only [List.get?] at hk0
            obtain rfl := Option.some.inj hk0
            obtain rfl := Option.some.inj hres0
            cases k with
            | zero =>
              simp only [List.get?] at hk
              obtain rfl := Option.some.inj hk
              obtain rfl := Option.some.inj hres
              rfl
            | succ k =>
              simp only [List.get?] at hk
              rw [hpos.2 k e out2 hk hres, hsz]
    · rename_i hg
      simp only [Option.some.injEq, Prod.mk.injEq] at h
      obtain ⟨hres, rfl⟩ := h
      intro e0 out0 k e out hk0
      simp [List.get?] at hk0

/-- Inversion of a successful `RunOnDevice`: the result was produced by the
main loop from the freshly initialized state. -/
theorem RunOnDevice_ok_elim {cfg : WhileConfig} {t0 t1 : Tensor} {lcds : List Tensor}
    {mtc : Int} {first : Bool} {fuel : Nat} {o : RunOutcome} {w : WhileResult}
    (h0 : readInt64 t0 = some mtc) (h1 : readBool t1 = some first)
    (h : RunOnDevice cfg (t0 :: t1 :: lcds) fuel = some o)
    (hw : o.result = .ok w) :
    ∃ st2, runLoop cfg mtc first lcds.length (kOf cfg lcds.length).toNat fuel
        (initState first lcds (kOf cfg lcds.length).toNat) = some (.ok st2, o.trace) ∧
      w.iterations = st2.itr ∧ w.outputs_scan = st2.scan_targets ∧
      w.outputs_lcd = (if 0 < st2.itr then st2.lcds else lcds) := by
  simp only [RunOnDevice, h0, h1] at h
  split at h
  · split at h
    · split at h
      · exact Option.noConfusion h
      · rename_i p res0 tr0 hrec
        obtain rfl := Option.some.inj h
        cases res0 with
        | error e => simp [resultOf] at hw
        | ok st2 =>
          simp only [resultOf, Except.ok.injEq] at hw
          refine ⟨st2, hrec, ?_, ?_, ?_⟩
          · rw [← hw]
          · rw [← hw]
          · rw [← hw]; simp [map_copy_from_id]
    · obtain rfl := Option.some.inj h
      simp at hw
  · obtain rfl := Option.some.inj h
    simp at hw

/-- Inversion of any `RunOnDevice` outcome with a nonempty trace: only the
main loop records body invocations, so the outcome came from the loop. -/
theorem RunOnDevice_trace_elim {cfg : WhileConfig} {inputs : List Tensor} {fuel : Nat}
    {o : RunOutcome} (h : RunOnDevice cfg inputs fuel = some o) (hne : o.trace ≠ []) :
    ∃ t0 t1 lcds mtc first res,
      inputs = t0 :: t1 :: lcds ∧ readInt64 t0 = some mtc ∧ readBool t1 = some first ∧
      runLoop cfg mtc first lcds.length (kOf cfg lcds.length).toNat fuel
        (initState first lcds (kOf cfg lcds.length).toNat) = some (res, o.trace) ∧
      o.result = resultOf lcds res := by
  cases inputs with
  | nil =>
    simp only [RunOnDevice] at h
    obtain rfl := Option.some.inj h
    exact absurd rfl hne
  | cons t0 rest =>
    cases rest with
    | nil =>
      simp only [RunOnDevice] at h
      obtain rfl := Option.some.inj h
      exact absurd rfl hne
    | cons t1 lcds =>
      cases hr0 : readInt64 t0 with
      | none =>
        simp only [RunOnDevice, hr0] at h
        obtain rfl := Option.some.inj h
        exact absurd rfl hne
      | some mtc =>
        cases hr1 : readBool t1 with
        | none =>
          simp only [RunOnDevice, hr0, hr1] at h
          obtain rfl := Option.some.inj h
          exact absurd rfl hne
        | some first =>
          simp only [RunOnDevice, hr0, hr1] at h
          split at h
          · split at h
            · split at h
              · exact Option.noConfusion h
              · rename_i p res0 tr0 hrec
                obtain rfl := Option.some.inj h
                exact ⟨t0, t1, lcds, mtc, first, res0, rfl, hr0, hr1, hrec, rfl⟩
            · obtain rfl := Option.some.inj h
              exact absurd rfl hne
          · obtain rfl := Option.some.inj h
            exact absurd rfl hne

theorem initState_itr (first : Bool) (lcds : List Tensor) (K : Nat) :
    (initState first lcds K).itr = 0 := rfl

theorem initState_cv (first : Bool) (lcds : List Tensor) (K : Nat) :
    (initState first lcds K).condition_var = false := rfl

/-- The stale value of the output-condition blob is immaterial to the guard:
at iteration 0 `condition_true` reads the captured first-iteration condition,
afterwards `condAt` reads the trace. -/
theorem guardB_condAt_congr (cfg : WhileConfig) (mtc : Int) (first c0 c1 : Bool)
    (tr : List IterRecord) (k : Nat) :
    guardB cfg mtc first (condAt c0 tr k) k = guardB cfg mtc first (condAt c1 tr k) k := by
  cases k with
  | zero => simp [guardB, condition_true, condAt]
  | succ k => rfl

/-- Claim C1: the body executes at iteration i exactly under the guard
`((not has_trip_count) or i < max_trip_count) and ((not has_cond) or
(if i = 0 then the caller-supplied condition else the output condition of
iteration i-1))`; when the guard first fails the loop stops without running
the body, and the counter starts at 0 and increases by exactly 1 per taken
iteration: in any successful invocation that ran `w.iterations` iterations
the recorded body invocations carry iteration numbers 0, 1, ...,
`w.iterations - 1`, each admitted by a true guard, and the guard at
`w.iterations` evaluates to false. -/
theorem onnx_while_c1 (cfg : WhileConfig) (t0 t1 : Tensor) (lcds : List Tensor)
    (mtc : Int) (first : Bool) (fuel : Nat) (o : RunOutcome) (w : WhileResult)
    (h0 : readInt64 t0 = some mtc) (h1 : readBool t1 = some first)
    (h : RunOnDevice cfg (t0 :: t1 :: lcds) fuel = some o)
    (hw : o.result = .ok w) :
    o.trace.map IterRecord.itr = List.range w.iterations ∧
    (∀ k, k < w.iterations →
      guardB cfg mtc first (condAt first o.trace k) k = true) ∧
    guardB cfg mtc first (condAt first o.trace w.iterations) w.iterations = false := by
  obtain ⟨st2, hloop, hiter, _, _⟩ := RunOnDevice_ok_elim h0 h1 h hw
  obtain ⟨hmap, hrec, hend⟩ := runLoop_spec cfg mtc first lcds.length _ fuel _ _ _ hloop
  obtain ⟨hi2, hc2, hg2⟩ := hend st2 rfl
  rw [initState_itr] at hi2
  rw [initState_cv] at hc2
  rw [initState_itr] at hmap
  have hT : w.iterations = o.trace.length := by omega
  refine ⟨?_, ?_, ?_⟩
  · rw [hT, List.range_eq_range']
    simpa using hmap
  · intro k hk
    rw [hT] at hk
    have he := List.get?_eq_get (l := o.trace) hk
    obtain ⟨-, -, hguard, -⟩ := hrec k _ he
    rw [initState_itr, initState_cv, Nat.zero_add] at hguard
    rw [guardB_condAt_congr cfg mtc first first false]
    exact hguard
  · rw [hT, guardB_condAt_congr cfg mtc first first false, ← hc2]
    have hlen : o.trace.length = st2.itr := by omega
    rw [hlen]
    exact hg2

/-- Witness for C1: a concrete run with trip count 2 takes iterations 0 and 1
and the guard at 2 is false. -/
theorem onnx_while_c1_witness :
    readInt64 exT0 = some 2 ∧
    exOutcome.trace.map IterRecord.itr = List.range exResult.iterations ∧
    guardB exCfg 2 true (condAt true exOutcome.trace exResult.iterations)
      exResult.iterations = false := by
  have h := onnx_while_c1 exCfg exT0 exT1 [] 2 true 5 exOutcome exResult rfl rfl rfl rfl
  exact ⟨rfl, h.1, h.2.2⟩

/-- With neither termination mechanism configured, the loop can only exhaust
its fuel or die on an error: it never reaches a normal exit. -/
theorem runLoop_no_ok (cfg : WhileConfig) (h1 : cfg.has_trip_count = false)
    (h2 : cfg.has_cond = false) (mtc : Int) (first : Bool) (N K : Nat) :
    ∀ fuel st st2 tr, runLoop cfg mtc first N K fuel st ≠ some (.ok st2, tr) := by
  intro fuel
  induction fuel with
  | zero => intro st st2 tr h; exact Option.noConfusion h
  | succ n ih =>
    intro st st2 tr h
    rw [runLoop] at h
    have hg : (valid_iter_num cfg mtc (st.itr : Int) &&
        condition_true cfg first st.condition_var (st.itr : Int)) = true := by
      simp [valid_iter_num, condition_true, h1, h2]
    rw [if_pos hg] at h
    split at h
    · simp at h
    · split at h
      · simp at h
      · split at h
        · exact Option.noConfusion h
        · rename_i p res0 tr0 hrec
          simp only [Option.some.injEq, Prod.mk.injEq] at h
          obtain ⟨rfl, rfl⟩ := h
          exact ih _ st2 tr0 hrec

/-- Claim C8: with `has_trip_count = false` and `has_cond = false` the guard
is true at every iteration number, so the loop never transitions to DONE on
its own: no amount of fuel makes `RunOnDevice` return a successful result
(it either exhausts the fuel mid-loop or propagates a body failure). -/
theorem onnx_while_c8 (cfg : WhileConfig) (h1 : cfg.has_trip_count = false)
    (h2 : cfg.has_cond = false) (mtc : Int) (first c : Bool) (i : Int)
    (inputs : List Tensor) (fuel : Nat) (o : RunOutcome) (w : WhileResult) :
    valid_iter_num cfg mtc i = true ∧ condition_true cfg first c i = true ∧
    (RunOnDevice cfg inputs fuel = some o → o.result ≠ .ok w) := by
  refine ⟨by simp [valid_iter_num, h1], by simp [condition_true, h2], ?_⟩
  intro h hok
  cases inputs with
  | nil =>
    simp only [RunOnDevice] at h
    obtain rfl := Option.some.inj h
    simp at hok
  | cons t0 rest =>
    cases rest with
    | nil =>
      simp only [RunOnDevice] at h
      obtain rfl := Option.some.inj h
      simp at hok
    | cons t1 lcds =>
      cases hr0 : readInt64 t0 with
      | none =>
        simp only [RunOnDevice, hr0] at h
        obtain rfl := Option.some.inj h
        simp at hok
      | some mtc2 =>
        cases hr1 : readBool t1 with
        | none =>
          simp only [RunOnDevice, hr0, hr1] at h
          obtain rfl := Option.some.inj h
          simp at hok
        | some first2 =>
          simp only [RunOnDevice, hr0, hr1] at h
          split at h
          · split at h
            · split at h
              · exact Option.noConfusion h
              · rename_i p res0 tr0 hrec
                obtain rfl := Option.some.inj h
                cases res0 with
                | error e => simp [resultOf] at hok
                | ok st2 =>
                  exact runLoop_no_ok cfg h1 h2 mtc2 first2 _ _ fuel _ st2 tr0 hrec
            · obtain rfl := Option.some.inj h
              simp at hok
          · obtain rfl := Option.some.inj h
            simp at hok

/-- Witness for C8: concrete guard instances are true, and a concrete
invocation's outcome cannot be a success. -/
theorem onnx_while_c8_witness :
    valid_iter_num nfCfg 0 5 = true ∧ condition_true nfCfg true false 5 = true ∧
    (⟨Except.error RunError.bad_input_read, []⟩ : RunOutcome).result ≠
      Except.ok (⟨[], [], 0⟩ : WhileResult) := by
  have h := onnx_while_c8 nfCfg rfl rfl 0 true false 5 [] 1
    ⟨Except.error RunError.bad_input_read, []⟩ ⟨[], [], 0⟩
  exact ⟨h.1, h.2.1, h.2.2 rfl⟩

/-- Claim C5: if the Subgraph Executor reports failure at any reached
iteration, the whole invocation immediately fails with that failure (no
retry), and no successful result (hence no final loop-carried copy-out) is
produced. -/
theorem onnx_while_c5 (cfg : WhileConfig) (inputs : List Tensor) (fuel : Nat)
    (o : RunOutcome) (e : IterRecord)
    (h : RunOnDevice cfg inputs fuel = some o)
    (hmem : e ∈ o.trace)
    (hfail : cfg.body e.itr e.cond_in e.lcds_in = none) :
    o.result = .error .body_failed ∧ ∀ w, o.result ≠ .ok w := by
  have hne : o.trace ≠ [] := by
    intro hE; rw [hE] at hmem; simp at hmem
  obtain ⟨t0, t1, lcds, mtc, first, res, -, h0, h1, hloop, hres⟩ :=
    RunOnDevice_trace_elim h hne
  obtain ⟨k, hk⟩ := List.get?_of_mem hmem
  obtain ⟨-, hrec, -⟩ := runLoop_spec cfg mtc first lcds.length _ fuel _ _ _ hloop
  obtain ⟨-, hdet, -, hprop⟩ := hrec k e hk
  have hnone : e.res = none := by rw [hdet, hfail]
  have hresf := hprop hnone
  rw [hres, hresf]
  exact ⟨rfl, fun w hc => Except.noConfusion hc⟩

/-- Witness for C5: a body that fails at iteration 0 makes the invocation
fail with `body_failed`. -/
theorem onnx_while_c5_witness :
    failCfg.body failRec.itr failRec.cond_in failRec.lcds_in = none ∧
    failOutcome.result = .error .body_failed := by
  have h := onnx_while_c5 failCfg [exT0, exT1] 3 failOutcome failRec rfl
    (by simp [failOutcome]) rfl
  exact ⟨rfl, h.1⟩

/-- Claim C4: if at some iteration i > 0 a scan output's per-iteration dims
differ from the dims that same scan output had at iteration 0, the whole
invocation fails: no successful result is produced. -/
theorem onnx_while_c4 (cfg : WhileConfig) (inputs : List Tensor) (fuel : Nat)
    (o : RunOutcome) (i j : Nat) (e0 ei : IterRecord) (o0 oi : BodyOutput)
    (s0 si : Tensor)
    (h : RunOnDevice cfg inputs fuel = some o)
    (h0 : o.trace.get? 0 = some e0) (hres0 : e0.res = some o0)
    (hi : o.trace.get? i = some ei) (hresi : ei.res = some oi)
    (hip : 0 < i)
    (hs0 : o0.scans.get? j = some s0) (hsi : oi.scans.get? j = some si)
    (hne : si.dims ≠ s0.dims) :
    ∀ w, o.result ≠ .ok w := by
  intro w hok
  have hneT : o.trace ≠ [] := by
    intro hE; rw [hE] at h0; simp at h0
  obtain ⟨t0, t1, lcds, mtc, first, res, -, hr0, hr1, hloop, hres⟩ :=
    RunOnDevice_trace_elim h hneT
  rw [hres] at hok
  cases res with
  | error e => simp [resultOf] at hok
  | ok st2 =>
    have hdims := runLoop_scan_zero cfg mtc first lcds.length _ fuel _ st2 o.trace
      (initState_itr first lcds _) (by simp [initState]) hloop e0 o0 i ei oi
      h0 hres0 hi hresi
    have hj : (oi.scans.map Tensor.dims).get? j = (o0.scans.map Tensor.dims).get? j := by
      rw [hdims]
    rw [List.get?_map, List.get?_map, hsi, hs0] at hj
    simp only [Option.map_some'] at hj
    exact hne (Option.some.inj hj)

/-- Witness for C4: a body whose scan shape drifts from [2] to [3] at
iteration 1 makes the invocation fail. -/
theorem onnx_while_c4_witness :
    (0 : Nat) < 1 ∧ driftOutcome.result ≠ .ok ⟨[], [], 0⟩ := by
  have h := onnx_while_c4 driftCfg [driftT0, exT1] 5 driftOutcome 1 0
    driftRec0 driftRec1 driftOut0 driftOut1 (⟨[2], byteMeta, [10, 11]⟩ : Tensor)
    (⟨[3], byteMeta, [12, 13, 14]⟩ : Tensor) rfl rfl rfl rfl rfl Nat.zero_lt_one
    rfl rfl (by decide)
  exact ⟨Nat.zero_lt_one, h ⟨[], [], 0⟩⟩

/-- Claim C6: with N operator-level loop-carried inputs, unless the body
declares exactly N + 2 inputs and at least N + 1 outputs, the invocation
fails with the corresponding arity contract violation and the body is never
run (the trace is empty). -/
theorem onnx_while_c6 (cfg : WhileConfig) (t0 t1 : Tensor) (lcds : List Tensor)
    (mtc : Int) (first : Bool) (fuel : Nat)
    (h0 : readInt64 t0 = some mtc) (h1 : readBool t1 = some first)
    (hbad : lcds.length + 2 ≠ cfg.body_input_count ∨
      cfg.body_output_count < lcds.length + 1) :
    ∃ e, (e = RunError.arity_inputs ∨ e = RunError.arity_outputs) ∧
      RunOnDevice cfg (t0 :: t1 :: lcds) fuel = some ⟨.error e, []⟩ := by
  by_cases hin : lcds.length + 2 = cfg.body_input_count
  · have hout : cfg.body_output_count < lcds.length + 1 := hbad.resolve_left (by simp [hin])
    refine ⟨.arity_outputs, Or.inr rfl, ?_⟩
    have hk : ¬ (0 ≤ kOf cfg lcds.length) := by unfold kOf; omega
    simp only [RunOnDevice, h0, h1]
    rw [if_pos hin, if_neg hk]
  · refine ⟨.arity_inputs, Or.inl rfl, ?_⟩
    simp only [RunOnDevice, h0, h1]
    rw [if_neg hin]

/-- Witness for C6: a body declaring 5 inputs against N = 0 loop-carried
inputs aborts with the input-arity violation, body never run. -/
theorem onnx_while_c6_witness :
    ([] : List Tensor).length + 2 ≠ baCfg.body_input_count ∧
    ∃ e, (e = RunError.arity_inputs ∨ e = RunError.arity_outputs) ∧
      RunOnDevice baCfg [exT0, exT1] 3 = some ⟨.error e, []⟩ :=
  ⟨by decide, onnx_while_c6 baCfg exT0 exT1 [] 2 true 3 rfl rfl (Or.inl (by decide))⟩

/-- If the guard is false at iteration 0, the loop exits immediately: the
invocation succeeds, the initial loop-carried inputs pass through unchanged,
and each scan output stays the empty int32 buffer allocated before the loop. -/
theorem zero_iter_run (cfg : WhileConfig) (t0 t1 : Tensor) (lcds : List Tensor)
    (mtc : Int) (first : Bool) (fuel : Nat)
    (h0 : readInt64 t0 = some mtc) (h1 : readBool t1 = some first)
    (ha : lcds.length + 2 = cfg.body_input_count)
    (hb : 0 ≤ kOf cfg lcds.length)
    (hg : ∀ c, (valid_iter_num cfg mtc 0 && condition_true cfg first c 0) = false) :
    RunOnDevice cfg (t0 :: t1 :: lcds) (fuel + 1) =
      some ⟨.ok ⟨lcds, List.replicate (kOf cfg lcds.length).toNat zeroScanOutput, 0⟩,
            []⟩ := by
  simp only [RunOnDevice, h0, h1]
  rw [if_pos ha, if_pos hb, runLoop, if_neg ?hneg]
  case hneg =>
    intro hc
    rw [initState_itr, initState_cv] at hc
    rw [show ((0 : Nat) : Int) = 0 from rfl] at hc
    rw [hg false] at hc
    exact Bool.noConfusion hc
  simp [resultOf, initState, map_copy_from_id]

/-- Claim C3: when the guard is false at iteration 0 (for instance trip count
enabled with `max_trip_count = 0`, or condition enabled with a false initial
condition), the invocation succeeds, every final loop-carried output equals
the corresponding initial input exactly, and every scan output is the empty
buffer. -/
theorem onnx_while_c3 (cfg : WhileConfig) (t0 t1 : Tensor) (lcds : List Tensor)
    (mtc : Int) (first : Bool) (fuel : Nat)
    (h0 : readInt64 t0 = some mtc) (h1 : readBool t1 = some first)
    (ha : lcds.length + 2 = cfg.body_input_count)
    (hb : 0 ≤ kOf cfg lcds.length)
    (hg : ∀ c, (valid_iter_num cfg mtc 0 && condition_true cfg first c 0) = false) :
    RunOnDevice cfg (t0 :: t1 :: lcds) (fuel + 1) =
      some ⟨.ok ⟨lcds, List.replicate (kOf cfg lcds.length).toNat zeroScanOutput, 0⟩,
            []⟩ ∧
    zeroScanOutput.dims = [0] ∧ zeroScanOutput.data = [] :=
  ⟨zero_iter_run cfg t0 t1 lcds mtc first fuel h0 h1 ha hb hg, rfl, rfl⟩

/-- Witness for C3: `max_trip_count = 0` with one loop-carried input passes it
through unchanged with an empty scan output. -/
theorem onnx_while_c3_witness :
    readInt64 zT0 = some 0 ∧
    RunOnDevice zCfg [zT0, exT1, zLcd] 1 =
      some ⟨.ok ⟨[zLcd], List.replicate (kOf zCfg 1).toNat zeroScanOutput, 0⟩, []⟩ := by
  have h := onnx_while_c3 zCfg zT0 exT1 [zLcd] 0 true 0 rfl rfl rfl (by decide)
    (fun _ => rfl)
  exact ⟨rfl, h.1⟩

/-- Claim C10: in the zero-iteration case every scan output is materialized
as a zero-length int32 buffer, regardless of the element type the body
declares for it (the body, hence its declared scan element type, is
universally quantified here and never consulted). -/
theorem onnx_while_c10 (cfg : WhileConfig) (t0 t1 : Tensor) (lcds : List Tensor)
    (mtc : Int) (first : Bool) (fuel : Nat)
    (h0 : readInt64 t0 = some mtc) (h1 : readBool t1 = some first)
    (ha : lcds.length + 2 = cfg.body_input_count)
    (hb : 0 ≤ kOf cfg lcds.length)
    (hg : ∀ c, (valid_iter_num cfg mtc 0 && condition_true cfg first c 0) = false) :
    ∃ w, RunOnDevice cfg (t0 :: t1 :: lcds) (fuel + 1) = some ⟨.ok w, []⟩ ∧
      w.outputs_scan.length = (kOf cfg lcds.length).toNat ∧
      ∀ t ∈ w.outputs_scan, t.meta = int32Meta ∧ t.dims = [0] ∧ t.data = [] := by
  refine ⟨⟨lcds, List.replicate (kOf cfg lcds.length).toNat zeroScanOutput, 0⟩,
    zero_iter_run cfg t0 t1 lcds mtc first fuel h0 h1 ha hb hg, by simp, ?_⟩
  intro t ht
  obtain rfl := List.eq_of_mem_replicate ht
  exact ⟨rfl, rfl, rfl⟩

/-- Witness for C10: the body for `zCfg` declares a byte-typed scan output,
yet the zero-iteration scan output is int32. -/
theorem onnx_while_c10_witness :
    readBool exT1 = some true ∧
    ∃ w, RunOnDevice zCfg [zT0, exT1, zLcd] 1 = some ⟨.ok w, []⟩ ∧
      w.outputs_scan.length = (kOf zCfg 1).toNat ∧
      ∀ t ∈ w.outputs_scan, t.meta = int32Meta ∧ t.dims = [0] ∧ t.data = [] :=
  ⟨rfl, onnx_while_c10 zCfg zT0 exT1 [zLcd] 0 true 0 rfl rfl rfl (by decide)
    (fun _ => rfl)⟩

/-- Claim C9: the max-trip-count input and the condition input are
dereferenced unconditionally (lines 75-76), before any use of
`has_trip_count` / `has_cond` and before the arity checks: whenever input 0
is not a nonempty int64 tensor or input 1 is not a nonempty bool tensor, the
invocation is undefined (fails), for every flag configuration, including
both flags disabled. -/
theorem onnx_while_c9 (cfg : WhileConfig) (t0 t1 : Tensor) (rest : List Tensor)
    (fuel : Nat) (h : readInt64 t0 = none ∨ readBool t1 = none) :
    RunOnDevice cfg (t0 :: t1 :: rest) fuel = some ⟨.error .bad_input_read, []⟩ ∧
    RunOnDevice { cfg with has_trip_count := false, has_cond := false }
      (t0 :: t1 :: rest) fuel = some ⟨.error .bad_input_read, []⟩ := by
  rcases h with h | h
  · constructor <;> simp [RunOnDevice, h]
  · cases hr0 : readInt64 t0 with
    | none => constructor <;> simp [RunOnDevice, hr0]
    | some mtc => constructor <;> simp [RunOnDevice, hr0, h]

/-- Witness for C9: a bool-typed tensor in the int64 slot is fatal even
though `exCfg.has_cond` is false. -/
theorem onnx_while_c9_witness :
    readInt64 badT0 = none ∧
    RunOnDevice exCfg [badT0, exT1] 3 = some ⟨.error .bad_input_read, []⟩ :=
  ⟨by decide, (onnx_while_c9 exCfg badT0 exT1 [] 3 (Or.inl (by decide))).1⟩

/-- Claim C2 evaluated on the code: with per-iteration scan shape [2] and
T = 2 iterations, the code produces a scan output of dims [3] — the
`Resize([1] ++ dims)` of iteration 0 (line 174) is immediately overwritten by
`CopyFrom` (line 175), a full content + shape copy, so the leading dimension
is the slice's own leading dim plus T - 1, not T.  The claimed final dims
`[T] ++ established_shape = [2, 2]` do not hold (neither can the slice
concatenation be addressed under them: the buffer's logical extent is 3
elements, with the 4th concatenated byte sitting past the logical end). -/
theorem onnx_while_c2_eval :
    RunOnDevice exCfg [exT0, exT1] 5 = some exOutcome ∧
    exOutcome.result = .ok exResult ∧
    exResult.iterations = 2 ∧
    exResult.outputs_scan.map Tensor.dims = [[3]] ∧
    exResult.outputs_scan.map Tensor.dims ≠ [[2, 2]] :=
  ⟨rfl, rfl, rfl, rfl, by decide⟩

theorem wsKeys_updateBlob (ws : Workspace) (n : Nat) (t : Tensor) :
    wsKeys (updateBlob ws n t) = wsKeys ws := by
  unfold wsKeys updateBlob
  rw [List.map_map]
  congr 1
  funext p
  by_cases hp : p.1 = n <;> simp [Function.comp, hp]

theorem wsKeys_foldl_updateBlob (l : List (Nat × Tensor)) :
    ∀ ws : Workspace,
      wsKeys (l.foldl (fun w p => updateBlob w p.1 p.2) ws) = wsKeys ws := by
  induction l with
  | nil => intro ws; rfl
  | cons p ps ih => intro ws; rw [List.foldl_cons, ih, wsKeys_updateBlob]

/-- An invocation's writes never create or drop a binding: the name-to-Buffer
domain is exactly preserved. -/
theorem wsKeys_invokeBindings (bd : BodyDef) (wr : InvocationWrites) (ws : Workspace) :
    wsKeys (invokeBindings bd wr ws) = wsKeys ws := by
  unfold invokeBindings
  rw [wsKeys_updateBlob, wsKeys_updateBlob, wsKeys_updateBlob, wsKeys_foldl_updateBlob]

theorem hasBlob_createBlob_self (ws : Workspace) (n : Nat) :
    hasBlob (createBlob ws n) n = true := by
  unfold createBlob
  split
  · assumption
  · simp [hasBlob, wsKeys]

theorem hasBlob_createBlob_mono {ws : Workspace} {m : Nat} (n : Nat)
    (h : hasBlob ws m = true) : hasBlob (createBlob ws n) m = true := by
  unfold createBlob
  split
  · exact h
  · simp only [hasBlob, wsKeys, List.map_append, decide_eq_true_eq] at h ⊢
    exact List.mem_append_left _ h

theorem hasBlob_foldl_createBlob_mono (l : List Nat) :
    ∀ {ws : Workspace} {m : Nat}, hasBlob ws m = true →
      hasBlob (l.foldl createBlob ws) m = true := by
  induction l with
  | nil => intro ws m h; exact h
  | cons n ns ih => intro ws m h; exact ih (hasBlob_createBlob_mono n h)

theorem hasBlob_foldl_createBlob_self (l : List Nat) :
    ∀ {ws : Workspace} {m : Nat}, m ∈ l → hasBlob (l.foldl createBlob ws) m = true := by
  induction l with
  | nil => intro ws m h; simp at h
  | cons n ns ih =>
    intro ws m h
    rcases List.mem_cons.mp h with rfl | hm
    · exact hasBlob_foldl_createBlob_mono ns (hasBlob_createBlob_self ws m)
    · exact ih hm

/-- `CreateBlob` on an existing name returns the existing binding untouched. -/
theorem createBlob_of_hasBlob {ws : Workspace} {n : Nat} (h : hasBlob ws n = true) :
    createBlob ws n = ws := by
  unfold createBlob
  rw [if_pos h]

theorem foldl_createBlob_of_all (l : List Nat) :
    ∀ {ws : Workspace}, (∀ m ∈ l, hasBlob ws m = true) → l.foldl createBlob ws = ws := by
  induction l with
  | nil => intro ws _; rfl
  | cons n ns ih =>
    intro ws h
    rw [List.foldl_cons, createBlob_of_hasBlob (h n (by simp)),
      ih (fun m hm => h m (by simp [hm]))]

/-- After construction, every binding role of the loop exists. -/
theorem roleNames_present (bd : BodyDef) (ws : Workspace) :
    ∀ m ∈ roleNames bd, hasBlob (constructBindings bd ws) m = true := by
  intro m hm
  unfold constructBindings
  rcases List.mem_append.mp hm with hlcd | hrest
  · exact hasBlob_createBlob_mono _ (hasBlob_createBlob_mono _ (hasBlob_createBlob_mono _
      (hasBlob_foldl_createBlob_self _ hlcd)))
  · simp only [List.mem_cons, List.not_mem_nil, or_false] at hrest
    rcases hrest with rfl | rfl | rfl
    · exact hasBlob_createBlob_mono _ (hasBlob_createBlob_mono _
        (hasBlob_createBlob_self _ _))
    · exact hasBlob_createBlob_mono _ (hasBlob_createBlob_self _ _)
    · exact hasBlob_createBlob_self _ _

theorem constructBindings_idem (bd : BodyDef) (ws : Workspace) :
    constructBindings bd (constructBindings bd ws) = constructBindings bd ws := by
  have hall := roleNames_present bd ws
  have hlcd : ∀ m ∈ lcdNames bd, hasBlob (constructBindings bd ws) m = true :=
    fun m hm => hall m (List.mem_append_left _ hm)
  have hiter : hasBlob (constructBindings bd ws) (iterName bd) = true :=
    hall _ (List.mem_append_right _ (by simp))
  have hcin : hasBlob (constructBindings bd ws) (condInName bd) = true :=
    hall _ (List.mem_append_right _ (by simp))
  have hcout : hasBlob (constructBindings bd ws) (condOutName bd) = true :=
    hall _ (List.mem_append_right _ (by simp))
  conv_lhs => rw [constructBindings]
  rw [foldl_createBlob_of_all _ hlcd, createBlob_of_hasBlob hiter,
    createBlob_of_hasBlob hcin, createBlob_of_hasBlob hcout]

/-- Claim C7: the bindings for the loop-carried deps, the iteration number,
the input condition and the output condition are created exactly once at
construction (re-running construction changes nothing); each invocation only
overwrites them, so across any two invocations of the same instance the
binding domain is exactly the one established at construction — no new named
buffer appears. -/
theorem onnx_while_c7 (bd : BodyDef) (ws0 : Workspace) (w1 w2 : InvocationWrites) :
    ((roleNames bd).all (fun n => hasBlob (constructBindings bd ws0) n)) = true ∧
    constructBindings bd (constructBindings bd ws0) = constructBindings bd ws0 ∧
    wsKeys (invokeBindings bd w1 (constructBindings bd ws0)) =
      wsKeys (constructBindings bd ws0) ∧
    wsKeys (invokeBindings bd w2 (invokeBindings bd w1 (constructBindings bd ws0))) =
      wsKeys (constructBindings bd ws0) := by
  refine ⟨?_, constructBindings_idem bd ws0, wsKeys_invokeBindings bd w1 _, ?_⟩
  · rw [List.all_eq_true]
    exact roleNames_present bd ws0
  · rw [wsKeys_invokeBindings, wsKeys_invokeBindings]

end ONNXWhile
